import Mathlib

/-!
Verification of the `tooler` repository's asset-resolution and registry
subsystem against its natural-language specification.

Strings are modelled as lists of characters (`Str`), so that every operation
of the source (substring containment, prefix/suffix tests, splitting) is an
executable structural function and concrete inputs evaluate by `decide`/`rfl`.
External collaborators (network, filesystem, clock, the `semver` crate and
`serde_json`) are modelled as explicit oracle parameters or, for `semver` and
JSON, as faithful executable translations of their documented semantics at the
points the source uses them.
-/

namespace Tooler

/-- Strings of the source are modelled as lists of characters. -/
abbrev Str := List Char

/-- Convert a Lean string literal into the `Str` model. -/
def str (s : String) : Str := s.data

/-- Rust `str::to_lowercase` (ASCII-relevant fragment): lowercase every char. -/
def lower (s : Str) : Str := s.map Char.toLower

/-- Rust `str::ends_with`: `suf` is a suffix of `s`. -/
def endsWith (suf s : Str) : Bool :=
  decide (suf.length ≤ s.length) && decide (s.drop (s.length - suf.length) = suf)

/-- Rust `str::contains(&str)`: substring containment. -/
def isInfixOf (needle : Str) : Str → Bool
  | [] => needle.isEmpty
  | c :: rest => needle.isPrefixOf (c :: rest) || isInfixOf needle rest

/-- Rust `str::split(char)` semantics on the `Str` model: splitting `""` gives
`[""]`, a trailing separator yields a trailing empty segment. -/
def splitOnChar (c : Char) : Str → List Str
  | [] => [[]]
  | x :: xs =>
    if x = c then [] :: splitOnChar c xs
    else
      match splitOnChar c xs with
      | [] => [[x]]
      | y :: ys => (x :: y) :: ys

/-- Rust `splitn(2, c)` on a string known to contain `c`: the part before the
first occurrence of `c` and the part after it. -/
def splitFirstAt (c : Char) : Str → Str × Str
  | [] => ([], [])
  | x :: xs =>
    if x = c then ([], xs)
    else
      let p := splitFirstAt c xs
      (x :: p.1, p.2)

/-- Rust `rsplitn(2, c)` on a string known to contain `c`: the part before the
last occurrence of `c` and the part after it. -/
def splitLastAt (c : Char) (s : Str) : Str × Str :=
  let p := splitFirstAt c s.reverse
  (p.2.reverse, p.1.reverse)

/-- Fuel-driven loop stripping repeated copies of prefix `p` (Rust
`trim_start_matches` for a nonempty pattern, specialised to the front). -/
def stripPrefixLoop (p : Str) : Nat → Str → Str
  | 0, s => s
  | n + 1, s =>
    if p.isPrefixOf s && !p.isEmpty then stripPrefixLoop p n (s.drop p.length) else s

/-- Rust `str::trim_end_matches(pat)`: remove every trailing copy of `pat`. -/
def trimEndMatches (pat s : Str) : Str :=
  (stripPrefixLoop pat.reverse s.length s.reverse).reverse

/-- Rust `str::trim_start_matches(char)`: remove every leading copy of `c`. -/
def trimStartMatchesChar (c : Char) (s : Str) : Str := s.dropWhile (· == c)

/-- Rust `str::replace(char, &str)`: replace every occurrence of `c` by `rep`. -/
def replaceChar (c : Char) (rep : Str) : Str → Str
  | [] => []
  | x :: xs => (if x = c then rep else [x]) ++ replaceChar c rep xs

/-! ### The version-guessing regex of `tool_id.rs`

`regex::Regex::new(r"v?(\d+\.\d+\.\d+)")` followed by `find`: the leftmost
match of an optional `v` followed by three dot-separated digit runs, digit
runs taken greedily. -/

/-- Split a maximal leading digit run off a string. -/
def takeDigits (s : Str) : Str × Str := (s.takeWhile Char.isDigit, s.dropWhile Char.isDigit)

/-- Match `\d+\.\d+\.\d+` at the start of `s`, returning the matched text. -/
def matchNumericCore (s : Str) : Option Str :=
  let p1 := takeDigits s
  if p1.1 = [] then none
  else
    match p1.2 with
    | '.' :: r2 =>
      let p2 := takeDigits r2
      if p2.1 = [] then none
      else
        match p2.2 with
        | '.' :: r4 =>
          let p3 := takeDigits r4
          if p3.1 = [] then none
          else some (p1.1 ++ '.' :: p2.1 ++ '.' :: p3.1)
        | _ => none
    | _ => none

/-- Match `v?\d+\.\d+\.\d+` at the start of `s`. -/
def matchVersionAt (s : Str) : Option Str :=
  match s with
  | 'v' :: rest =>
    match matchNumericCore rest with
    | some m => some ('v' :: m)
    | none => matchNumericCore s
  | _ => matchNumericCore s

/-- Leftmost match of `v?\d+\.\d+\.\d+` anywhere in `s` (`Regex::find`). -/
def regexFindVersion : Str → Option Str
  | [] => none
  | x :: rest =>
    match matchVersionAt (x :: rest) with
    | some m => some m
    | none => regexFindVersion rest

/-! ### `types.rs`: `Forge` and the identifier of `tool_id.rs` -/

/-- `types.rs` `Forge`. -/
inductive Forge where
  | gitHub
  | url
deriving DecidableEq, Repr

/-- `tool_id.rs` `ToolIdentifier`. -/
structure ToolIdentifier where
  forge : Forge
  author : Str
  repo : Str
  version : Option Str
  url : Option Str
deriving DecidableEq, Repr

/-- `ToolIdentifier::parse`, repository-part half: split on `/`; one segment
means an unknown author, two segments mean `author/repo`, anything else is an
`InvalidRepoFormat` error. -/
def parseRepoPart (repoPart : Str) (version : Option Str) : Except Str ToolIdentifier :=
  match splitOnChar '/' repoPart with
  | [r] => .ok ⟨.gitHub, str "unknown", r, version, none⟩
  | [a, r] => .ok ⟨.gitHub, a, r, version, none⟩
  | _ => .error (str "Invalid repository format")

/-- `ToolIdentifier::parse`, URL branch (`tool_id.rs` lines 34-74): split a
trailing `@version` off on the last `@` (only when the query contains `@` but
not `@v`), derive the logical name from the last path segment with query
string and archive extensions stripped, and guess a missing version with the
`v?\d+\.\d+\.\d+` regex. -/
def parseUrlId (toolId : Str) : Except Str ToolIdentifier :=
  let uv : Str × Option Str :=
    if toolId.contains '@' && !isInfixOf (str "@v") toolId then
      let p := splitLastAt '@' toolId
      (p.1, some p.2)
    else (toolId, none)
  let urlPart := uv.1
  let seg := ((splitOnChar '/' urlPart).getLast?).getD (str "unknown_tool")
  let segQ := ((splitOnChar '?' seg).head?).getD (str "unknown_tool")
  let name :=
    trimEndMatches (str ".tar.xz")
      (trimEndMatches (str ".tgz")
        (trimEndMatches (str ".tar.gz")
          (trimEndMatches (str ".zip") segQ)))
  let version :=
    match uv.2 with
    | some v => some v
    | none => regexFindVersion urlPart
  .ok ⟨.url, str "direct", name, version, some urlPart⟩

/-- `ToolIdentifier::parse` (`tool_id.rs` lines 21-109). -/
def ToolIdentifier.parse (toolId : Str) : Except Str ToolIdentifier :=
  if toolId = [] then .error (str "Tool identifier cannot be empty")
  else if toolId.head? = some '-' then
    .error (str "Invalid tool identifier: it looks like a CLI flag")
  else if (str "http://").isPrefixOf toolId || (str "https://").isPrefixOf toolId then
    parseUrlId toolId
  else
    let rv : Str × Option Str :=
      if toolId.contains '@' then
        let p := splitFirstAt '@' toolId
        (p.1, some p.2)
      else (toolId, some (str "default"))
    parseRepoPart rv.1 rv.2

/-- `ToolIdentifier::full_repo`. -/
def ToolIdentifier.full_repo (t : ToolIdentifier) : Str :=
  if t.author = str "unknown" then t.repo else t.author ++ '/' :: t.repo

/-- `ToolIdentifier::tool_name`. -/
def ToolIdentifier.tool_name (t : ToolIdentifier) : Str := t.repo

/-- `ToolIdentifier::api_version`. -/
def ToolIdentifier.api_version (t : ToolIdentifier) : Str :=
  let v := t.version.getD (str "default")
  if v = str "default" then str "latest"
  else if v.contains '/'
      || (match v.head? with | some c => !c.isDigit | none => false)
      || v.head? = some 'v' then v
  else 'v' :: v

/-- `ToolIdentifier::config_key`. -/
def ToolIdentifier.config_key (t : ToolIdentifier) : Str :=
  let v := t.version.getD (str "default")
  if v = str "default" then t.full_repo ++ str "@latest"
  else t.full_repo ++ '@' :: v

/-- `ToolIdentifier::default_config_key`. -/
def ToolIdentifier.default_config_key (t : ToolIdentifier) : Str :=
  t.full_repo ++ str "@latest"

/-- `ToolIdentifier::is_pinned`. -/
def ToolIdentifier.is_pinned (t : ToolIdentifier) : Bool :=
  t.version.isSome && (t.version.getD (str "default") != str "default")

instance {ε α : Type} [DecidableEq ε] [DecidableEq α] : DecidableEq (Except ε α) := fun x y =>
  match x, y with
  | .ok a, .ok b =>
    if h : a = b then .isTrue (by rw [h]) else .isFalse (by intro hc; cases hc; exact h rfl)
  | .error a, .error b =>
    if h : a = b then .isTrue (by rw [h]) else .isFalse (by intro hc; cases hc; exact h rfl)
  | .ok _, .error _ => .isFalse (by intro hc; cases hc)
  | .error _, .ok _ => .isFalse (by intro hc; cases hc)

example : ToolIdentifier.parse (str "act") =
    .ok ⟨.gitHub, str "unknown", str "act", some (str "default"), none⟩ := by decide

example : ToolIdentifier.parse (str "nektos/act@v0.2.79") =
    .ok ⟨.gitHub, str "nektos", str "act", some (str "v0.2.79"), none⟩ := by decide

example : ToolIdentifier.parse (str "owner/repo/extra") =
    .error (str "Invalid repository format") := by decide

example :
    (ToolIdentifier.parse (str "nektos/act@v0.2.79")).toOption.map
      ToolIdentifier.config_key = some (str "nektos/act@v0.2.79") := by decide

/-! ### The `semver` crate fragment used by `install.rs`

`install.rs` calls `semver::Version::parse` and `semver::VersionReq::parse` /
`VersionReq::matches` from the external `semver` crate (v1). The fragment
exercised here is modelled from that crate's documented semantics: a version
is a strict `MAJOR.MINOR.PATCH` numeric triple (numeric identifiers, no
leading zeros; prerelease/build identifiers are outside the fragment the
claims exercise), and a bare 1- or 2-component requirement such as `"1.2"`
is the default caret requirement `^1.2`. -/

/-- Numeric value of a digit string. -/
def digitsToNat (s : Str) : Nat :=
  s.foldl (fun n c => 10 * n + (c.toNat - '0'.toNat)) 0

/-- A semver numeric identifier: nonempty, all digits, no leading zero. -/
def parseNumericComponent (s : Str) : Option Nat :=
  if s ≠ [] && s.all Char.isDigit && !(s.head? = some '0' && s.length != 1) then
    some (digitsToNat s)
  else none

/-- `semver::Version::parse` (numeric-core fragment): exactly
`MAJOR.MINOR.PATCH`. -/
def semverParse (s : Str) : Option (Nat × Nat × Nat) :=
  match splitOnChar '.' s with
  | [a, b, c] =>
    match parseNumericComponent a, parseNumericComponent b, parseNumericComponent c with
    | some x, some y, some z => some (x, y, z)
    | _, _, _ => none
  | _ => none

/-- `semver::VersionReq::parse` on a bare 1- or 2-component requirement:
major and optional minor. -/
def versionReqParse (s : Str) : Option (Nat × Option Nat) :=
  match splitOnChar '.' s with
  | [a] => (parseNumericComponent a).map fun x => (x, none)
  | [a, b] =>
    match parseNumericComponent a, parseNumericComponent b with
    | some x, some y => some (x, some y)
    | _, _ => none
  | _ => none

/-- `semver::VersionReq::matches` for a default (caret) bare requirement:
`^a` matches any version with major `a`; `^a.b` with `a > 0` matches
`>= a.b.0, < (a+1).0.0`; `^0.b` matches `>= 0.b.0, < 0.(b+1).0`. -/
def versionReqCaretMatches (req : Nat × Option Nat) (v : Nat × Nat × Nat) : Bool :=
  match req.2 with
  | none => decide (v.1 = req.1)
  | some mi =>
    if req.1 > 0 then decide (v.1 = req.1) && decide (v.2.1 ≥ mi)
    else decide (v.1 = 0) && decide (v.2.1 = mi)

/-- `install.rs` `version_matches` (lines 628-665). -/
def version_matches (requested existing : Str) : Bool :=
  let requestedClean := trimStartMatchesChar 'v' requested
  let existingClean := trimStartMatchesChar 'v' existing
  if requestedClean = existingClean then true
  else
    match semverParse requestedClean, semverParse existingClean with
    | some r, some e =>
      if (splitOnChar '.' requestedClean).length ≤ 2 then
        decide (r.1 = e.1) && decide (r.2.1 = e.2.1)
      else decide (r = e)
    | _, _ =>
      if (splitOnChar '.' requestedClean).length ≤ 2 then
        match versionReqParse requestedClean, semverParse existingClean with
        | some req, some e => versionReqCaretMatches req e
        | _, _ => decide (requestedClean = existingClean)
      else decide (requestedClean = existingClean)

example : version_matches (str "1.2.3") (str "1.2.3") = true := by decide
example : version_matches (str "1") (str "1.5.0") = true := by decide
example : version_matches (str "v1.2") (str "1.2.0") = true := by decide
example : version_matches (str "2") (str "1.5.0") = false := by decide
example : version_matches (str "1.2.3") (str "1.2.4") = false := by decide
example : version_matches (str "1.2") (str "2.0.0") = false := by decide
example : version_matches (str "1.2") (str "1.1.9") = false := by decide
example : version_matches (str "1") (str "0.9.0") = false := by decide
example : version_matches (str "master") (str "master") = true := by decide

/-! ### `platform.rs`: the asset matcher -/

/-- `types.rs` `GitHubAsset`. -/
structure GitHubAsset where
  name : Str
  browser_download_url : Str
deriving DecidableEq, Repr

/-- `types.rs` `AssetInfo`. -/
structure AssetInfo where
  name : Str
  download_url : Str
deriving DecidableEq, Repr

/-- OS alias table of `find_asset_for_platform` (`platform.rs` lines 40-44). -/
def osAliases : List (Str × List Str) :=
  [(str "linux", [str "linux", str "unknown-linux", str "pc-linux"]),
   (str "darwin", [str "darwin", str "macos", str "osx"]),
   (str "windows", [str "windows", str "win", str "cygwin"])]

/-- Architecture alias table of `find_asset_for_platform` (lines 46-51). -/
def archAliases : List (Str × List Str) :=
  [(str "x86_64", [str "amd64", str "x64", str "x86_64"]),
   (str "aarch64", [str "arm64", str "aarch64"]),
   (str "arm64", [str "arm64", str "aarch64"]),
   (str "arm", [str "arm", str "armv7"])]

/-- Archive extensions (line 55). -/
def archiveExts : List Str := [str ".tar.gz", str ".zip", str ".tar.xz", str ".tgz"]

/-- Package extensions (line 56). -/
def packageExts : List Str := [str ".apk", str ".deb", str ".rpm"]

/-- Checksum/signature/metadata extensions discarded up front (lines 57-59). -/
def invalidExts : List Str :=
  [str ".sha256", str ".asc", str ".sig", str ".pem", str ".pub", str ".md",
   str ".txt", str ".pom", str ".xml", str ".json", str ".whl"]

/-- The nine buckets of `categorize_assets`. -/
inductive AssetCategory where
  | osArchArchive | osArchBinary | osArchPackage
  | osOnlyArchive | osOnlyBinary | osOnlyPackage
  | archOnlyArchive | archOnlyBinary | archOnlyPackage
deriving DecidableEq, Repr

/-- Bucket assignment of one asset in `categorize_assets` (`platform.rs`
lines 203-250): `none` means the asset is dropped (invalid extension, or
neither an OS nor an architecture token matched). -/
def categoryOf (a : GitHubAsset) : Option AssetCategory :=
  let nl := lower a.name
  if invalidExts.any (fun e => endsWith e nl) then none
  else
    let hasOs := osAliases.any fun p => p.2.any fun al => isInfixOf al nl
    let hasArch := archAliases.any fun p => p.2.any fun al => isInfixOf al nl
    let isArchive := archiveExts.any fun e => endsWith e nl
    let isPackage := packageExts.any fun e => endsWith e nl
    let isBinary := !isArchive && !isPackage
    match hasOs, hasArch with
    | true, true =>
      some (if isArchive then .osArchArchive else if isBinary then .osArchBinary
            else .osArchPackage)
    | true, false =>
      some (if isArchive then .osOnlyArchive else if isBinary then .osOnlyBinary
            else .osOnlyPackage)
    | false, true =>
      some (if isArchive then .archOnlyArchive else if isBinary then .archOnlyBinary
            else .archOnlyPackage)
    | false, false => none

/-- The bucket map built by `categorize_assets` (lines 179-258); each field
holds the assets of one bucket in input order. -/
structure Categories where
  os_arch_archive : List GitHubAsset
  os_arch_binary : List GitHubAsset
  os_arch_package : List GitHubAsset
  os_only_archive : List GitHubAsset
  os_only_binary : List GitHubAsset
  os_only_package : List GitHubAsset
  arch_only_archive : List GitHubAsset
  arch_only_binary : List GitHubAsset
  arch_only_package : List GitHubAsset
deriving Repr

/-- `categorize_assets`: push each asset into its bucket, preserving order. -/
def categorize_assets (assets : List GitHubAsset) : Categories where
  os_arch_archive := assets.filter fun a => decide (categoryOf a = some .osArchArchive)
  os_arch_binary := assets.filter fun a => decide (categoryOf a = some .osArchBinary)
  os_arch_package := assets.filter fun a => decide (categoryOf a = some .osArchPackage)
  os_only_archive := assets.filter fun a => decide (categoryOf a = some .osOnlyArchive)
  os_only_binary := assets.filter fun a => decide (categoryOf a = some .osOnlyBinary)
  os_only_package := assets.filter fun a => decide (categoryOf a = some .osOnlyPackage)
  arch_only_archive := assets.filter fun a => decide (categoryOf a = some .archOnlyArchive)
  arch_only_binary := assets.filter fun a => decide (categoryOf a = some .archOnlyBinary)
  arch_only_package := assets.filter fun a => decide (categoryOf a = some .archOnlyPackage)

/-- The strict re-filter applied inside the priority loop (lines 85-130) for
the `os_arch_*` buckets: the name must contain an alias of the *current*
OS and an alias of the *current* architecture, where the `arm` alias is
rejected if the name contains `arm64`. -/
def exactPlatformMatch (systemOs systemArch : Str) (a : GitHubAsset) : Bool :=
  let nl := lower a.name
  let osMatch := osAliases.any fun p =>
    decide (p.1 = systemOs) && p.2.any fun al => isInfixOf al nl
  let archMatch := archAliases.any fun p =>
    decide (p.1 = systemArch) && p.2.any fun al =>
      isInfixOf al nl && !(decide (al = str "arm") && isInfixOf (str "arm64") nl)
  osMatch && archMatch

/-- musl preference key (lines 141-151): 0 is a perfect match, 2 penalises a
glibc asset on a musl system, 1 the reverse. -/
def muslPenalty (isMusl : Bool) (a : GitHubAsset) : Nat :=
  let assetIsMusl := isInfixOf (str "musl") (lower a.name)
  if assetIsMusl = isMusl then 0
  else if !assetIsMusl && isMusl then 2
  else 1

/-- Rust `Iterator::min_by_key`: first element attaining the minimum key. -/
def minByKey (f : α → Nat) : List α → Option α
  | [] => none
  | x :: xs =>
    match minByKey f xs with
    | none => some x
    | some y => if f x ≤ f y then some x else some y

/-- One iteration of the priority loop: filter a bucket by the strict
platform match, then pick the musl-preferred asset. -/
def tryCategory (systemOs systemArch : Str) (isMusl : Bool)
    (bucket : List GitHubAsset) : Option AssetInfo :=
  match minByKey (muslPenalty isMusl) (bucket.filter (exactPlatformMatch systemOs systemArch)) with
  | some a => some ⟨a.name, a.browser_download_url⟩
  | none => none

/-- `find_asset_for_platform` (`platform.rs` lines 22-177), with the
`is_musl_system()` probe supplied as the `isMusl` argument. The source
returns `Result<Option<AssetInfo>>` but has no error path, so the model
returns `Option AssetInfo`. -/
def find_asset_for_platform (assets : List GitHubAsset)
    (systemOs systemArch : Str) (isMusl : Bool) : Option AssetInfo :=
  let cats := categorize_assets assets
  match tryCategory systemOs systemArch isMusl cats.os_arch_archive with
  | some a => some a
  | none =>
    match tryCategory systemOs systemArch isMusl cats.os_arch_binary with
    | some a => some a
    | none =>
      match tryCategory systemOs systemArch isMusl cats.os_arch_package with
      | some a => some a
      | none =>
        match assets.find? (fun a => endsWith (str ".whl") (lower a.name)) with
        | some a => some ⟨a.name, a.browser_download_url⟩
        | none => none

example :
    find_asset_for_platform
      [⟨str "tool_1.2_linux_aarch64.tar.gz", str "u1"⟩, ⟨str "tool.whl", str "u2"⟩]
      (str "linux") (str "arm64") false =
    some ⟨str "tool_1.2_linux_aarch64.tar.gz", str "u1"⟩ := by decide

example :
    find_asset_for_platform [⟨str "tool.whl", str "u2"⟩]
      (str "linux") (str "arm64") false = some ⟨str "tool.whl", str "u2"⟩ := by decide

/-! ### The registry data model (`types.rs`) and `HashMap` operations

`HashMap<String, V>` is modelled as an association list with unique keys;
`insert` overwrites, `remove` deletes, lookup finds the entry. -/

/-- `HashMap::get`. -/
def mapGet (l : List (Str × α)) (k : Str) : Option α :=
  match l with
  | [] => none
  | (k', v) :: rest => if k' = k then some v else mapGet rest k

/-- `HashMap::remove` (the resulting map; the returned value is `mapGet`). -/
def mapErase (l : List (Str × α)) (k : Str) : List (Str × α) :=
  match l with
  | [] => []
  | (k', v) :: rest => if k' = k then mapErase rest k else (k', v) :: mapErase rest k

/-- `HashMap::insert`: overwrite any existing entry at `k`. -/
def mapInsert (l : List (Str × α)) (k : Str) (v : α) : List (Str × α) :=
  (k, v) :: mapErase l k

theorem mapGet_mapErase (l : List (Str × α)) (k k' : Str) :
    mapGet (mapErase l k) k' = if k' = k then none else mapGet l k' := by
  induction l with
  | nil => simp [mapGet, mapErase]
  | cons p rest ih =>
    obtain ⟨k'', v⟩ := p
    by_cases h1 : k'' = k <;> by_cases h2 : k'' = k' <;>
      simp only [mapGet, mapErase, h1, h2, if_true, if_false, ih, if_neg, if_pos] <;>
      subst_vars <;> simp_all [mapGet]

theorem mapGet_mapInsert_self (l : List (Str × α)) (k : Str) (v : α) :
    mapGet (mapInsert l k v) k = some v := by
  simp [mapInsert, mapGet]

theorem mapGet_mapInsert_ne (l : List (Str × α)) (k k' : Str) (v : α) (h : k' ≠ k) :
    mapGet (mapInsert l k v) k' = mapGet l k' := by
  have h' : ¬k = k' := fun hc => h hc.symm
  simp [mapInsert, mapGet, h', mapGet_mapErase, h]

/-- `types.rs` `ToolInfo`. -/
structure ToolInfo where
  tool_name : Str
  repo : Str
  version : Str
  executable_path : Str
  install_type : Str
  pinned : Bool
  installed_at : Str
  last_accessed : Str
  last_checked : Option Str
  forge : Forge
  original_url : Option Str
deriving DecidableEq, Repr

/-- `types.rs` `ToolerSettings` (`update_check_days` is an `i32`). -/
structure ToolerSettings where
  update_check_days : Int
  auto_shim : Bool
  auto_update : Bool
  bin_dir : Str
  parse_release_body : Bool
deriving DecidableEq, Repr

/-- `types.rs` `ToolerConfig`: the registry. -/
structure ToolerConfig where
  tools : List (Str × ToolInfo)
  aliases : List (Str × Str)
  settings : ToolerSettings
deriving DecidableEq, Repr

/-- Error taxonomy of the orchestration functions. The source uses `anyhow`
errors with distinct messages; the model distinguishes them by constructor. -/
inductive Err where
  | parseError (m : Str)
  | shimInstallConflict
  | shimRemoveConflict
  | releaseError (m : Str)
  | assetNotFound (n : Str)
  | noAssetForPlatform
  | missingUrl
  | ioError (m : Str)
  | downloadError (m : Str)
  | extractError (m : Str)
  | pythonError (m : Str)
  | saveError (m : Str)
  | toolNotFound (q : Str)
deriving DecidableEq, Repr

/-- An error raised by one of the staging steps of `install_or_update_tool`:
download, extraction (including executable discovery), or Python-venv
setup. -/
def Err.isStaging : Err → Bool
  | .downloadError _ => true
  | .extractError _ => true
  | .pythonError _ => true
  | _ => false

/-- `install.rs` `pin_tool` (lines 690-725). `save_tool_configs` is external
persistence, supplied as the `saveResult` oracle; the returned config is the
in-memory registry after the call. -/
def pin_tool (saveResult : Except Str Unit) (config : ToolerConfig) (toolQuery : Str) :
    Except Err Unit × ToolerConfig :=
  match ToolIdentifier.parse toolQuery with
  | .error e => (.error (.parseError e), config)
  | .ok tid =>
    let toolKey := tid.config_key
    match mapGet config.tools toolKey with
    | some info =>
      let info' : ToolInfo := { info with pinned := true }
      let tools1 := mapInsert config.tools toolKey info'
      let latestKey := tid.default_config_key
      let tools2 :=
        match mapGet tools1 latestKey with
        | some latestTool =>
          mapInsert tools1 latestKey
            { latestTool with
                pinned := true
                version := info'.version
                executable_path := info'.executable_path }
        | none => tools1
      let config' := { config with tools := tools2 }
      match saveResult with
      | .error m => (.error (.saveError m), config')
      | .ok _ => (.ok (), config')
    | none => (.error (.toolNotFound toolQuery), config)

/-! ### `install.rs`: the install/update orchestrator

External effects are made explicit: the world carries the in-memory registry
and the contents of the final versioned install directories (abstract content
tokens keyed by path); the oracle carries the outcomes of network, clock and
filesystem operations, and the staging directory's eventual content. Staging
writes happen inside an isolated temporary directory and are therefore not
part of the world; only promotion and registry mutation touch it. -/

/-- `types.rs` `PlatformInfo`. -/
structure PlatformInfo where
  os : Str
  arch : Str
deriving DecidableEq, Repr

/-- `types.rs` `GitHubRelease` (the `body` field is unused by the claims). -/
structure GitHubRelease where
  tag_name : Str
  assets : List GitHubAsset
deriving DecidableEq, Repr

/-- Observable state threaded through the orchestrator: the in-memory
registry and the final versioned directories on disk. -/
structure World where
  config : ToolerConfig
  dirs : List (Str × Nat)
deriving DecidableEq, Repr

/-- Outcomes of the external operations performed by
`install_or_update_tool`, in the order the source consults them. -/
structure InstallOracle where
  systemInfo : PlatformInfo
  isMusl : Bool
  toolsDir : Str
  now : Str
  releaseInfo : Except Str GitHubRelease
  fileExists : Str → Bool
  createBaseDir : Except Str Unit
  createStagingDir : Except Str Unit
  downloadResult : Except Str Unit
  extractResult : Except Str Str
  pythonResult : Except Str Str
  stagedContent : Nat
  removeDirResult : Except Str Unit
  createParentDir : Except Str Unit
  renameResult : Except Str Unit
  saveResult : Except Str Unit

/-- Directory-name prefix per forge (`install.rs` lines 166-169). -/
def forgePrefixStr : Forge → Str
  | .gitHub => str "github"
  | .url => str "url"

/-- Metadata resolution and asset selection (`install.rs` lines 100-162):
returns `(actual_version, asset, original_url, repo_full_name)`. -/
def resolveAsset (o : InstallOracle) (tid : ToolIdentifier) (toolName : Str)
    (assetOverride : Option Str) : Except Err (Str × AssetInfo × Option Str × Str) :=
  match tid.forge with
  | .gitHub =>
    let repo := tid.full_repo
    match o.releaseInfo with
    | .error m => .error (.releaseError m)
    | .ok rel =>
      let version := rel.tag_name
      match assetOverride with
      | some assetName =>
        match rel.assets.find? (fun a => decide (a.name = assetName)) with
        | some a => .ok (version, ⟨a.name, a.browser_download_url⟩, none, repo)
        | none => .error (.assetNotFound assetName)
      | none =>
        match find_asset_for_platform rel.assets o.systemInfo.os o.systemInfo.arch o.isMusl with
        | some ai => .ok (version, ai, none, repo)
        | none => .error .noAssetForPlatform
  | .url =>
    match tid.url with
    | none => .error .missingUrl
    | some u =>
      let version := tid.version.getD (str "unknown")
      let assetName := ((splitOnChar '/' u).getLast?).getD toolName
      .ok (version, ⟨assetName, u⟩, some u, tid.full_repo)

/-- The staging phase (`install.rs` lines 245-305), dispatched on the asset
name's extension: a `.whl` builds a Python venv and shim, an archive is
downloaded and extracted with executable discovery, anything else is a
directly-downloaded binary renamed to the tool name. All writes land in the
temporary staging directory; the returned path is staging-relative. -/
def stageAsset (o : InstallOracle) (assetName toolName : Str) : Except Err (Str × Str) :=
  let nl := lower assetName
  if endsWith (str ".whl") nl then
    match o.pythonResult with
    | .error m => .error (.pythonError m)
    | .ok p => .ok (p, str "python-venv")
  else if endsWith (str ".tar.gz") nl || endsWith (str ".zip") nl ||
      endsWith (str ".tar.xz") nl || endsWith (str ".tgz") nl then
    match o.downloadResult with
    | .error m => .error (.downloadError m)
    | .ok _ =>
      match o.extractResult with
      | .error m => .error (.extractError m)
      | .ok p => .ok (p, str "archive")
  else
    match o.downloadResult with
    | .error m => .error (.downloadError m)
    | .ok _ =>
      let finalName :=
        if o.systemInfo.os = str "windows" then toolName ++ str ".exe" else toolName
      .ok (finalName, str "binary")

/-- The fresh `ToolInfo` recorded by `install_or_update_tool`
(lines 324-335). -/
def freshToolInfo (o : InstallOracle) (tid : ToolIdentifier)
    (finalExec installType actualVersion : Str) (originalUrl : Option Str) : ToolInfo where
  tool_name := lower tid.tool_name
  repo := tid.full_repo
  version := trimStartMatchesChar 'v' actualVersion
  executable_path := finalExec
  install_type := installType
  pinned := tid.is_pinned
  installed_at := o.now
  last_accessed := o.now
  last_checked := none
  forge := tid.forge
  original_url := originalUrl

/-- The world after the fresh record is inserted into the in-memory
registry (line 337). -/
def recordWorld (o : InstallOracle) (w2 : World) (tid : ToolIdentifier)
    (toolKey verDir relExec installType actualVersion : Str)
    (originalUrl : Option Str) : World :=
  { w2 with
    config :=
      { w2.config with
        tools :=
          mapInsert w2.config.tools toolKey
            (freshToolInfo o tid (verDir ++ '/' :: relExec) installType actualVersion
              originalUrl) } }

/-- Registry insertion and persistence (lines 324-338), entered with the
world already holding the promoted directory. -/
def recordAndSave (o : InstallOracle) (w2 : World) (tid : ToolIdentifier)
    (toolKey verDir relExec installType actualVersion : Str)
    (originalUrl : Option Str) : Except Err Str × World :=
  match o.saveResult with
  | .error m =>
    (.error (.saveError m),
     recordWorld o w2 tid toolKey verDir relExec installType actualVersion originalUrl)
  | .ok _ =>
    (.ok (verDir ++ '/' :: relExec),
     recordWorld o w2 tid toolKey verDir relExec installType actualVersion originalUrl)

/-- Parent-directory creation and the staging-to-final rename
(lines 312-322), entered with any pre-existing final directory removed. -/
def promoteRename (o : InstallOracle) (w1 : World) (tid : ToolIdentifier)
    (toolKey verDir relExec installType actualVersion : Str)
    (originalUrl : Option Str) : Except Err Str × World :=
  match o.createParentDir with
  | .error m => (.error (.ioError m), w1)
  | .ok _ =>
    match o.renameResult with
    | .error m => (.error (.ioError m), w1)
    | .ok _ =>
      recordAndSave o { w1 with dirs := mapInsert w1.dirs verDir o.stagedContent }
        tid toolKey verDir relExec installType actualVersion originalUrl

/-- Promotion and registry update (`install.rs` lines 307-362): remove any
pre-existing final versioned directory, rename the staging directory into
place, insert the fresh `ToolInfo`, persist. Failures after a mutation
return the world as mutated so far, mirroring `&mut` state plus `?`. -/
def promoteAndRecord (o : InstallOracle) (w : World) (tid : ToolIdentifier)
    (toolKey verDir relExec installType actualVersion : Str)
    (originalUrl : Option Str) : Except Err Str × World :=
  match mapGet w.dirs verDir with
  | some _ =>
    match o.removeDirResult with
    | .error m => (.error (.ioError m), w)
    | .ok _ =>
      promoteRename o { w with dirs := mapErase w.dirs verDir }
        tid toolKey verDir relExec installType actualVersion originalUrl
  | none =>
    promoteRename o w tid toolKey verDir relExec installType actualVersion originalUrl

/-- The idempotence check of `install_or_update_tool` (lines 187-232): when
not forcing, an existing registry record whose executable (or, with an asset
override, whose cached asset file) still exists short-circuits the install,
returning the recorded executable path. -/
def alreadyInstalledCheck (o : InstallOracle) (w : World) (toolKey verDir : Str)
    (forceUpdate : Bool) (assetOverride : Option Str) : Option Str :=
  if forceUpdate then none
  else
    match mapGet w.config.tools toolKey with
    | none => none
    | some info =>
      match assetOverride with
      | some assetName =>
        if o.fileExists (verDir ++ '/' :: assetName) then some info.executable_path
        else none
      | none =>
        if o.fileExists info.executable_path then some info.executable_path else none

/-- The fresh-install tail of `install_or_update_tool` (lines 237-362):
create the base directory and the staging directory, run the staging phase,
then promote and record. -/
def installFresh (o : InstallOracle) (w : World) (tid : ToolIdentifier)
    (toolKey verDir assetName toolName actualVersion : Str)
    (originalUrl : Option Str) : Except Err Str × World :=
  match o.createBaseDir with
  | .error m => (.error (.ioError m), w)
  | .ok _ =>
    match o.createStagingDir with
    | .error m => (.error (.ioError m), w)
    | .ok _ =>
      match stageAsset o assetName toolName with
      | .error e => (.error e, w)
      | .ok (relExec, installType) =>
        promoteAndRecord o w tid toolKey verDir relExec installType
          actualVersion originalUrl

/-- The tail of `install_or_update_tool` once the registry key and the
final versioned directory path are computed: the idempotence check, then
the fresh-install path. -/
def installAfterPaths (o : InstallOracle) (w : World) (tid : ToolIdentifier)
    (forceUpdate : Bool) (assetOverride : Option Str)
    (toolKey verDir assetName actualVersion : Str)
    (originalUrl : Option Str) : Except Err Str × World :=
  match alreadyInstalledCheck o w toolKey verDir forceUpdate assetOverride with
  | some p => (.ok p, w)
  | none =>
    installFresh o w tid toolKey verDir assetName tid.tool_name actualVersion originalUrl

/-- `install.rs` `install_or_update_tool` (lines 79-363). The final
versioned directory is
`<tools>/<forge>/<repo-with-__>__<arch>/<version-with-__>`. -/
def install_or_update_tool (o : InstallOracle) (w : World) (toolIdQuery : Str)
    (forceUpdate : Bool) (assetOverride : Option Str) : Except Err Str × World :=
  match ToolIdentifier.parse toolIdQuery with
  | .error e => (.error (.parseError e), w)
  | .ok tid =>
    if lower tid.tool_name = str "tooler-shim" then (.error .shimInstallConflict, w)
    else
      match resolveAsset o tid tid.tool_name assetOverride with
      | .error e => (.error e, w)
      | .ok (actualVersion, asset, originalUrl, repoFullName) =>
        installAfterPaths o w tid forceUpdate assetOverride tid.config_key
          (o.toolsDir ++ '/' :: forgePrefixStr tid.forge ++ '/' ::
            (replaceChar '/' (str "__") repoFullName ++ str "__" ++ o.systemInfo.arch) ++
            '/' :: replaceChar '/' (str "__") actualVersion)
          asset.name actualVersion originalUrl

/-- Oracle for `remove_tool`'s filesystem walk. -/
structure RemoveOracle where
  toolsDir : Str
  dirEntries : List Str
  removeDirResult : Except Str Unit
  saveResult : Except Str Unit

/-- The architecture-directory sweep of `remove_tool` (`install.rs` lines
775-792): for every entry of the forge directory whose name starts with
`repo__`, remove its version subdirectory if present. -/
def removeArchDirs (o : RemoveOracle) (parentPath repoUnderscored version : Str) :
    List Str → List (Str × Nat) → Except Err Unit × List (Str × Nat)
  | [], dirs => (.ok (), dirs)
  | entry :: rest, dirs =>
    if (repoUnderscored ++ str "__").isPrefixOf entry then
      let vd := parentPath ++ '/' :: entry ++ '/' :: version
      match mapGet dirs vd with
      | some _ =>
        match o.removeDirResult with
        | .error m => (.error (.ioError m), dirs)
        | .ok _ => removeArchDirs o parentPath repoUnderscored version rest (mapErase dirs vd)
      | none => removeArchDirs o parentPath repoUnderscored version rest dirs
    else removeArchDirs o parentPath repoUnderscored version rest dirs

/-- Per-key filesystem cleanup of `remove_tool` (lines 755-792): remove the
specific version directory under the (arch-less) base path, then sweep the
architecture-specific sibling directories. -/
def removeToolDirs (o : RemoveOracle) (info : ToolInfo) (dirs : List (Str × Nat)) :
    Except Err Unit × List (Str × Nat) :=
  let parentPath := o.toolsDir ++ '/' :: forgePrefixStr info.forge
  let base := parentPath ++ '/' :: replaceChar '/' (str "__") info.repo
  let vd := base ++ '/' :: info.version
  match mapGet dirs vd with
  | some _ =>
    match o.removeDirResult with
    | .error m => (.error (.ioError m), dirs)
    | .ok _ =>
      removeArchDirs o parentPath (replaceChar '/' (str "__") info.repo) info.version
        o.dirEntries (mapErase dirs vd)
  | none =>
    removeArchDirs o parentPath (replaceChar '/' (str "__") info.repo) info.version
      o.dirEntries dirs

/-- The removal loop of `remove_tool` (lines 754-794), threading the world;
a filesystem failure aborts mid-loop with the mutations made so far. -/
def removeLoop (o : RemoveOracle) (w : World) : List Str → Except Err Unit × World
  | [] => (.ok (), w)
  | k :: rest =>
    match mapGet w.config.tools k with
    | none => removeLoop o w rest
    | some info =>
      let w1 : World := { w with config := { w.config with tools := mapErase w.config.tools k } }
      match removeToolDirs o info w1.dirs with
      | (.error e, dirs') => (.error e, { w1 with dirs := dirs' })
      | (.ok _, dirs') => removeLoop o { w1 with dirs := dirs' } rest

/-- `install.rs` `remove_tool` (lines 727-799). -/
def remove_tool (o : RemoveOracle) (w : World) (toolQuery : Str) : Except Err Unit × World :=
  if lower toolQuery = str "tooler-shim" then (.error .shimRemoveConflict, w)
  else
    match ToolIdentifier.parse toolQuery with
    | .error e => (.error (.parseError e), w)
    | .ok tid =>
      let keysToRemove :=
        (w.config.tools.filter fun p =>
          decide (p.1 = tid.config_key) ||
          (!toolQuery.contains '@' && !toolQuery.contains ':' &&
            decide (lower p.2.repo = lower toolQuery))).map Prod.fst
      if keysToRemove = [] then (.error (.toolNotFound toolQuery), w)
      else
        match removeLoop o w keysToRemove with
        | (.error e, w') => (.error e, w')
        | (.ok _, w') =>
          match o.saveResult with
          | .error m => (.error (.saveError m), w')
          | .ok _ => (.ok (), w')

/-! ### Registry persistence (`config.rs` + the serde derives of `types.rs`)

`save_tool_configs_to_path` writes `serde_json::to_string_pretty(config)` and
`load_tool_configs` reads it back with `serde_json::from_str`. The JSON text
layer (printing and re-parsing an abstract syntax tree) is an external
collaborator; persistence is modelled at the JSON-AST level: saving encodes
the registry to a JSON value, loading decodes a JSON value following the
serde attributes of `types.rs` (`#[serde(default)]`, `default_pinned`,
`alias = "shim_dir"`, the `Forge` renames). -/

/-- JSON abstract syntax. -/
inductive Json where
  | null
  | bool (b : Bool)
  | num (n : Int)
  | str (s : Str)
  | arr (elems : List Json)
  | obj (fields : List (Str × Json))

/-- Serialization of `Option<String>`: `None` becomes `null`. -/
def encodeOptStr : Option Str → Json
  | none => .null
  | some s => .str s

/-- Serialization of `Forge` per its `#[serde(rename)]` attributes. -/
def encodeForge : Forge → Json
  | .gitHub => .str (str "github")
  | .url => .str (str "url")

/-- Serialization of `ToolInfo` (field order of `types.rs`). -/
def encodeToolInfo (t : ToolInfo) : Json :=
  .obj [(str "tool_name", .str t.tool_name),
        (str "repo", .str t.repo),
        (str "version", .str t.version),
        (str "executable_path", .str t.executable_path),
        (str "install_type", .str t.install_type),
        (str "pinned", .bool t.pinned),
        (str "installed_at", .str t.installed_at),
        (str "last_accessed", .str t.last_accessed),
        (str "last_checked", encodeOptStr t.last_checked),
        (str "forge", encodeForge t.forge),
        (str "original_url", encodeOptStr t.original_url)]

/-- Serialization of `ToolerSettings`. -/
def encodeSettings (s : ToolerSettings) : Json :=
  .obj [(str "update_check_days", .num s.update_check_days),
        (str "auto_shim", .bool s.auto_shim),
        (str "auto_update", .bool s.auto_update),
        (str "bin_dir", .str s.bin_dir),
        (str "parse_release_body", .bool s.parse_release_body)]

/-- Serialization of the whole registry (`ToolerConfig`), i.e. what
`save_tool_configs_to_path` persists. -/
def encodeConfig (c : ToolerConfig) : Json :=
  .obj [(str "tools", .obj (c.tools.map fun p => (p.1, encodeToolInfo p.2))),
        (str "aliases", .obj (c.aliases.map fun p => (p.1, Json.str p.2))),
        (str "settings", encodeSettings c.settings)]

/-- A required string field of a serde struct. -/
def reqStrField (o : List (Str × Json)) (k : Str) : Except Str Str :=
  match mapGet o k with
  | some (.str s) => .ok s
  | _ => .error (str "missing or mistyped string field")

/-- A `bool` field with a `#[serde(default)]` value. -/
def boolFieldD (o : List (Str × Json)) (k : Str) (d : Bool) : Except Str Bool :=
  match mapGet o k with
  | none => .ok d
  | some (.bool b) => .ok b
  | some _ => .error (str "mistyped bool field")

/-- An `i32` field with a `#[serde(default)]` value. -/
def intFieldD (o : List (Str × Json)) (k : Str) (d : Int) : Except Str Int :=
  match mapGet o k with
  | none => .ok d
  | some (.num n) => .ok n
  | some _ => .error (str "mistyped integer field")

/-- An `Option<String>` field with `#[serde(default)]`: missing or `null`
becomes `None`. -/
def optStrField (o : List (Str × Json)) (k : Str) : Except Str (Option Str) :=
  match mapGet o k with
  | none => .ok none
  | some .null => .ok none
  | some (.str s) => .ok (some s)
  | some _ => .error (str "mistyped optional string field")

/-- The `forge` field: `#[serde(default)]` (GitHub) with renamed variants. -/
def forgeFieldD (o : List (Str × Json)) (k : Str) : Except Str Forge :=
  match mapGet o k with
  | none => .ok .gitHub
  | some (.str s) =>
    if s = str "github" then .ok .gitHub
    else if s = str "url" then .ok .url
    else .error (str "unknown forge variant")
  | some _ => .error (str "mistyped forge field")

/-- Deserialization of `ToolInfo` per the serde derive of `types.rs`:
`pinned` defaults to `false` (`default_pinned`), `last_checked`, `forge` and
`original_url` default; all other fields are required. -/
def decodeToolInfo (j : Json) : Except Str ToolInfo :=
  match j with
  | .obj o => do
    let toolName ← reqStrField o (str "tool_name")
    let repo ← reqStrField o (str "repo")
    let version ← reqStrField o (str "version")
    let executablePath ← reqStrField o (str "executable_path")
    let installType ← reqStrField o (str "install_type")
    let pinned ← boolFieldD o (str "pinned") false
    let installedAt ← reqStrField o (str "installed_at")
    let lastAccessed ← reqStrField o (str "last_accessed")
    let lastChecked ← optStrField o (str "last_checked")
    let forge ← forgeFieldD o (str "forge")
    let originalUrl ← optStrField o (str "original_url")
    .ok ⟨toolName, repo, version, executablePath, installType, pinned,
         installedAt, lastAccessed, lastChecked, forge, originalUrl⟩
  | _ => .error (str "tool record is not an object")

/-- Deserialization of `ToolerSettings`: every field has a serde default;
`bin_dir` additionally accepts the legacy name `shim_dir`
(`#[serde(alias)]`). `default_bin_dir` depends on the home directory and is
passed in. -/
def decodeSettings (defaultBinDir : Str) (j : Json) : Except Str ToolerSettings :=
  match j with
  | .obj o => do
    let updateCheckDays ← intFieldD o (str "update_check_days") 60
    let autoShim ← boolFieldD o (str "auto_shim") true
    let autoUpdate ← boolFieldD o (str "auto_update") true
    let binDir ←
      match mapGet o (str "bin_dir") with
      | some (.str s) => Except.ok s
      | some _ => Except.error (str "mistyped bin_dir field")
      | none =>
        match mapGet o (str "shim_dir") with
        | some (.str s) => Except.ok s
        | some _ => Except.error (str "mistyped shim_dir field")
        | none => Except.ok defaultBinDir
    let parseReleaseBody ← boolFieldD o (str "parse_release_body") true
    .ok ⟨updateCheckDays, autoShim, autoUpdate, binDir, parseReleaseBody⟩
  | _ => .error (str "settings is not an object")

/-- Deserialization of the `tools` map: every entry must decode. -/
def decodeTools : List (Str × Json) → Except Str (List (Str × ToolInfo))
  | [] => .ok []
  | (k, v) :: rest => do
    let t ← decodeToolInfo v
    let ts ← decodeTools rest
    .ok ((k, t) :: ts)

/-- Deserialization of the `aliases` map: every value must be a string. -/
def decodeAliases : List (Str × Json) → Except Str (List (Str × Str))
  | [] => .ok []
  | (k, v) :: rest =>
    match v with
    | .str s => do
      let ts ← decodeAliases rest
      .ok ((k, s) :: ts)
    | _ => .error (str "alias target is not a string")

/-- Deserialization of the whole registry, i.e. `serde_json::from_str` as
invoked by `load_tool_configs`: `tools` and `settings` are required,
`aliases` has `#[serde(default)]`. -/
def decodeConfig (defaultBinDir : Str) (j : Json) : Except Str ToolerConfig :=
  match j with
  | .obj o => do
    let tools ←
      match mapGet o (str "tools") with
      | some (.obj e) => decodeTools e
      | some _ => Except.error (str "tools is not an object")
      | none => Except.error (str "missing field tools")
    let aliases ←
      match mapGet o (str "aliases") with
      | none => Except.ok []
      | some (.obj e) => decodeAliases e
      | some _ => Except.error (str "aliases is not an object")
    let settings ←
      match mapGet o (str "settings") with
      | some s => decodeSettings defaultBinDir s
      | none => Except.error (str "missing field settings")
    .ok ⟨tools, aliases, settings⟩
  | _ => .error (str "config is not an object")

/-! ## Claims -/

/-- C1: the semantic-version-partial matcher `version_matches` at the four
specification points. Three hold as specified; at `("1.2", "1.3.0")` the
code returns `true` where the claim (and the repository's own commented-out
test assertion) require `false`: `"1.2"` fails `semver::Version::parse`, so
it is matched through `semver::VersionReq` caret semantics, and `^1.2`
accepts every `1.x.y` with `x ≥ 2`. A 2-component request therefore does
not match exactly the versions sharing its major and minor components. -/
theorem version_matches_spec_points :
    version_matches (str "1.2") (str "1.2.7") = true ∧
    version_matches (str "1.2") (str "1.3.0") = true ∧
    version_matches (str "v1.2.3") (str "1.2.3") = true ∧
    version_matches (str "master") (str "main") = false := by decide

/-- C2: on the asset list `["tool-linux-arm64", "tool-linux-arm"]` with
platform `(linux, arm)`, the asset matcher selects `"tool-linux-arm"` and
not `"tool-linux-arm64"`, for any download URLs and any musl detection
outcome: the `arm` alias refuses to match a name containing `arm64`. -/
theorem arm_alias_excludes_arm64 :
    ∀ (u1 u2 : Str) (isMusl : Bool),
      find_asset_for_platform
        [⟨str "tool-linux-arm64", u1⟩, ⟨str "tool-linux-arm", u2⟩]
        (str "linux") (str "arm") isMusl =
      some ⟨str "tool-linux-arm", u2⟩ := by
  intro u1 u2 isMusl
  rfl

/-- C3: on the single-asset list `["tool-linux-amd64.tar.gz"]` with platform
`(linux, arm64)`, the asset matcher returns `none` for any download URL and
any musl detection outcome: there is no cross-architecture fallback. -/
theorem no_cross_arch_fallback :
    ∀ (u : Str) (isMusl : Bool),
      find_asset_for_platform [⟨str "tool-linux-amd64.tar.gz", u⟩]
        (str "linux") (str "arm64") isMusl = none := by
  intro u isMusl
  rfl

/-- C4: pinning `"o/r@1.0.0"` in a registry holding records at both
`"o/r@1.0.0"` and `"o/r@latest"` succeeds, leaves both records `pinned`,
forces the `@latest` record's `version` and `executable_path` to those of
the exact-version record, and changes nothing else. -/
theorem pin_tool_pins_and_syncs_latest :
    ∀ (cfg : ToolerConfig) (a b : ToolInfo),
      mapGet cfg.tools (str "o/r@1.0.0") = some a →
      mapGet cfg.tools (str "o/r@latest") = some b →
      (pin_tool (.ok ()) cfg (str "o/r@1.0.0")).1 = .ok () ∧
      mapGet (pin_tool (.ok ()) cfg (str "o/r@1.0.0")).2.tools (str "o/r@1.0.0") =
        some { a with pinned := true } ∧
      mapGet (pin_tool (.ok ()) cfg (str "o/r@1.0.0")).2.tools (str "o/r@latest") =
        some { b with pinned := true, version := a.version,
                      executable_path := a.executable_path } ∧
      (∀ k : Str, k ≠ str "o/r@1.0.0" → k ≠ str "o/r@latest" →
        mapGet (pin_tool (.ok ()) cfg (str "o/r@1.0.0")).2.tools k = mapGet cfg.tools k) ∧
      (pin_tool (.ok ()) cfg (str "o/r@1.0.0")).2.aliases = cfg.aliases ∧
      (pin_tool (.ok ()) cfg (str "o/r@1.0.0")).2.settings = cfg.settings := by
  intro cfg a b ha hb
  have hp : ToolIdentifier.parse (str "o/r@1.0.0") =
      .ok ⟨.gitHub, str "o", str "r", some (str "1.0.0"), none⟩ := by decide
  have hkey : (ToolIdentifier.config_key
      ⟨.gitHub, str "o", str "r", some (str "1.0.0"), none⟩) = str "o/r@1.0.0" := by decide
  have hlat : (ToolIdentifier.default_config_key
      ⟨.gitHub, str "o", str "r", some (str "1.0.0"), none⟩) = str "o/r@latest" := by decide
  have hne : (str "o/r@latest" : Str) ≠ str "o/r@1.0.0" := by decide
  have hne' : (str "o/r@1.0.0" : Str) ≠ str "o/r@latest" := by decide
  have hb1 : mapGet (mapInsert cfg.tools (str "o/r@1.0.0")
      { a with pinned := true }) (str "o/r@latest") = some b := by
    rw [mapGet_mapInsert_ne _ _ _ _ hne]; exact hb
  simp only [pin_tool, hp, hkey, hlat, ha, hb1]
  refine ⟨trivial, ?_, ?_, ?_, trivial, trivial⟩
  · rw [mapGet_mapInsert_ne _ _ _ _ hne', mapGet_mapInsert_self]
  · rw [mapGet_mapInsert_self]
  · intro k hk1 hkL
    rw [mapGet_mapInsert_ne _ _ _ _ hkL, mapGet_mapInsert_ne _ _ _ _ hk1]

/-- Witness for C4 at a concrete two-record registry. -/
theorem pin_tool_pins_and_syncs_latest_witness :
    (let rec1 : ToolInfo :=
      ⟨str "r", str "o/r", str "1.0.0", str "/t/r-1", str "binary", false,
       str "t0", str "t0", none, .gitHub, none⟩
    let rec2 : ToolInfo :=
      ⟨str "r", str "o/r", str "2.0.0", str "/t/r-2", str "binary", false,
       str "t0", str "t0", none, .gitHub, none⟩
    let cfg : ToolerConfig :=
      ⟨[(str "o/r@1.0.0", rec1), (str "o/r@latest", rec2)], [],
       ⟨60, true, true, str "/b", true⟩⟩
    mapGet (pin_tool (.ok ()) cfg (str "o/r@1.0.0")).2.tools (str "o/r@latest") =
      some { rec2 with pinned := true, version := rec1.version,
                       executable_path := rec1.executable_path }) := by
  exact (pin_tool_pins_and_syncs_latest _ _ _ (by decide) (by decide)).2.2.1

theorem contains_append_cons (r v : Str) (c : Char) : (r ++ c :: v).contains c = true := by
  induction r with
  | nil => simp [List.contains_cons]
  | cons x xs ih => simp [List.contains_cons, ih]

theorem splitFirstAt_append (c : Char) (r v : Str) (h : r.contains c = false) :
    splitFirstAt c (r ++ c :: v) = (r, v) := by
  induction r with
  | nil => simp [splitFirstAt]
  | cons x xs ih =>
    have hx : ¬x = c := by
      intro hxc
      subst hxc
      simp [List.contains_cons] at h
    have hxs : xs.contains c = false := by
      rw [List.contains_cons, Bool.or_eq_false_iff] at h
      exact h.2
    simp [splitFirstAt, hx, ih hxs]

/-- C5 counterexample: the non-URL branch splits on the FIRST `@`
(`splitn(2, '@')`), not the last: parsing `"a/b@x@y"` yields the repository
part `"a/b"` and the version `"x@y"`, where the claim predicts version
`"y"`. -/
theorem parse_splits_on_last_at_counterexample :
    ToolIdentifier.parse (str "a/b@x@y") =
      .ok ⟨.gitHub, str "a", str "b", some (str "x@y"), none⟩ ∧
    (str "x@y" : Str) ≠ str "y" := by decide

/-- C5 (amended): for every non-URL, nonempty query not starting with `-`
that contains an `@`, `parse` splits once on the FIRST `@`: writing the
query as `r ++ "@" ++ v` with `r` free of `@`, the repository part is `r`
and the version part is `v`. -/
theorem parse_splits_on_first_at :
    ∀ (r v : Str),
      r.contains '@' = false →
      (str "http://").isPrefixOf (r ++ '@' :: v) = false →
      (str "https://").isPrefixOf (r ++ '@' :: v) = false →
      (r ++ '@' :: v).head? ≠ some '-' →
      ToolIdentifier.parse (r ++ '@' :: v) = parseRepoPart r (some v) := by
  intro r v hc h1 h2 hh
  have hne : ¬(r ++ '@' :: v = []) := by cases r <;> simp
  have hcon : (r ++ '@' :: v).contains '@' = true := contains_append_cons r v '@'
  simp only [ToolIdentifier.parse, if_neg hne, if_neg hh, h1, h2, hcon,
    Bool.or_self, Bool.false_eq_true, if_false, if_true, splitFirstAt_append '@' r v hc]

/-- Witness for C5's amended statement at `r = "a/b"`, `v = "1.0"`. -/
theorem parse_splits_on_first_at_witness :
    ToolIdentifier.parse (str "a/b" ++ '@' :: str "1.0") =
      parseRepoPart (str "a/b") (some (str "1.0")) :=
  parse_splits_on_first_at (str "a/b") (str "1.0")
    (by decide) (by decide) (by decide) (by decide)

theorem parseRepoPart_version (r : Str) (ver : Option Str) (t : ToolIdentifier)
    (h : parseRepoPart r ver = .ok t) : t.version = ver := by
  unfold parseRepoPart at h
  split at h <;> cases h <;> rfl

/-- C6 counterexample: the URL branch guesses a version with the
`v?\d+\.\d+\.\d+` regex, so a query with no `@` can still parse to a pinned
identifier: `"https://example.com/tool-1.2.3.tar.gz"` contains no `@`, yet
parses with version `"1.2.3"` and `is_pinned = true`, where the claim
predicts version `"default"` and `is_pinned = false`. -/
theorem parse_no_at_unpinned_counterexample :
    (str "https://example.com/tool-1.2.3.tar.gz").contains '@' = false ∧
    ToolIdentifier.parse (str "https://example.com/tool-1.2.3.tar.gz") =
      .ok ⟨.url, str "direct", str "tool-1.2.3", some (str "1.2.3"),
           some (str "https://example.com/tool-1.2.3.tar.gz")⟩ ∧
    ToolIdentifier.is_pinned
      ⟨.url, str "direct", str "tool-1.2.3", some (str "1.2.3"),
       some (str "https://example.com/tool-1.2.3.tar.gz")⟩ = true := by decide

/-- C6 (amended): for every query containing no `@` that is NOT a direct
URL (no `http://`/`https://` prefix), a successful parse yields the version
spec `"default"` and `is_pinned = false`. -/
theorem parse_no_at_non_url_unpinned :
    ∀ (q : Str) (t : ToolIdentifier),
      q.contains '@' = false →
      (str "http://").isPrefixOf q = false →
      (str "https://").isPrefixOf q = false →
      ToolIdentifier.parse q = .ok t →
      t.version = some (str "default") ∧ t.is_pinned = false := by
  intro q t hc h1 h2 hp
  unfold ToolIdentifier.parse at hp
  by_cases he : q = []
  · rw [if_pos he] at hp
    cases hp
  rw [if_neg he] at hp
  by_cases hh : q.head? = some '-'
  · rw [if_pos hh] at hp
    cases hp
  rw [if_neg hh] at hp
  simp only [h1, h2, Bool.or_self, Bool.false_eq_true, if_false, hc] at hp
  have hv : t.version = some (str "default") := parseRepoPart_version _ _ _ hp
  refine ⟨hv, ?_⟩
  simp [ToolIdentifier.is_pinned, hv]

/-- Witness for C6's amended statement at the query `"a/b"`. -/
theorem parse_no_at_non_url_unpinned_witness :
    ToolIdentifier.parse (str "a/b") =
      .ok ⟨.gitHub, str "a", str "b", some (str "default"), none⟩ ∧
    ((⟨.gitHub, str "a", str "b", some (str "default"), none⟩ : ToolIdentifier).version =
        some (str "default") ∧
      (⟨.gitHub, str "a", str "b", some (str "default"), none⟩ : ToolIdentifier).is_pinned =
        false) :=
  ⟨by decide,
   parse_no_at_non_url_unpinned (str "a/b") _ (by decide) (by decide) (by decide) (by decide)⟩

theorem recordAndSave_error_not_staging (o : InstallOracle) (w2 : World)
    (tid : ToolIdentifier) (toolKey verDir relExec installType actualVersion : Str)
    (originalUrl : Option Str) (e : Err)
    (h : (recordAndSave o w2 tid toolKey verDir relExec installType
        actualVersion originalUrl).1 = .error e) :
    e.isStaging = false := by
  rcases hsv : o.saveResult with m | u
  · simp only [recordAndSave, hsv] at h
    cases h
    rfl
  · simp only [recordAndSave, hsv] at h
    cases h

theorem promoteRename_error_not_staging (o : InstallOracle) (w1 : World)
    (tid : ToolIdentifier) (toolKey verDir relExec installType actualVersion : Str)
    (originalUrl : Option Str) (e : Err)
    (h : (promoteRename o w1 tid toolKey verDir relExec installType
        actualVersion originalUrl).1 = .error e) :
    e.isStaging = false := by
  rcases hcp : o.createParentDir with m | u
  · simp only [promoteRename, hcp] at h
    cases h; rfl
  · rcases hrn : o.renameResult with m | u2
    · simp only [promoteRename, hcp, hrn] at h
      cases h; rfl
    · simp only [promoteRename, hcp, hrn] at h
      exact recordAndSave_error_not_staging _ _ _ _ _ _ _ _ _ _ h

theorem promoteAndRecord_error_not_staging (o : InstallOracle) (w : World)
    (tid : ToolIdentifier) (toolKey verDir relExec installType actualVersion : Str)
    (originalUrl : Option Str) (e : Err)
    (h : (promoteAndRecord o w tid toolKey verDir relExec installType
        actualVersion originalUrl).1 = .error e) :
    e.isStaging = false := by
  rcases hd : mapGet w.dirs verDir with _ | n
  · simp only [promoteAndRecord, hd] at h
    exact promoteRename_error_not_staging _ _ _ _ _ _ _ _ _ _ h
  · rcases hrm : o.removeDirResult with m | u
    · simp only [promoteAndRecord, hd, hrm] at h
      cases h; rfl
    · simp only [promoteAndRecord, hd, hrm] at h
      exact promoteRename_error_not_staging _ _ _ _ _ _ _ _ _ _ h

theorem installFresh_error_preserves_world (o : InstallOracle) (w : World)
    (tid : ToolIdentifier) (toolKey verDir assetName toolName actualVersion : Str)
    (originalUrl : Option Str) (e : Err)
    (h : (installFresh o w tid toolKey verDir assetName toolName actualVersion
        originalUrl).1 = .error e)
    (hs : e.isStaging = true) :
    (installFresh o w tid toolKey verDir assetName toolName actualVersion
        originalUrl).2 = w := by
  rcases hb : o.createBaseDir with m | u
  · simp only [installFresh, hb]
  · rcases hsd : o.createStagingDir with m | u2
    · simp only [installFresh, hb, hsd]
    · rcases hsa : stageAsset o assetName toolName with e2 | p
      · simp only [installFresh, hb, hsd, hsa]
      · simp only [installFresh, hb, hsd, hsa] at h
        exact absurd hs (by
          rw [promoteAndRecord_error_not_staging o w tid toolKey verDir p.1 p.2
            actualVersion originalUrl e h]
          exact Bool.false_ne_true)

theorem installAfterPaths_error_preserves_world (o : InstallOracle) (w : World)
    (tid : ToolIdentifier) (forceUpdate : Bool) (assetOverride : Option Str)
    (toolKey verDir assetName actualVersion : Str) (originalUrl : Option Str) (e : Err)
    (h : (installAfterPaths o w tid forceUpdate assetOverride toolKey verDir
        assetName actualVersion originalUrl).1 = .error e)
    (hs : e.isStaging = true) :
    (installAfterPaths o w tid forceUpdate assetOverride toolKey verDir
        assetName actualVersion originalUrl).2 = w := by
  rcases hai : alreadyInstalledCheck o w toolKey verDir forceUpdate assetOverride with _ | p
  · simp only [installAfterPaths, hai] at h ⊢
    exact installFresh_error_preserves_world _ _ _ _ _ _ _ _ _ _ h hs
  · simp only [installAfterPaths, hai]

/-- C7: if any staging step of `install_or_update_tool` fails (download,
extraction/executable discovery, or Python-venv setup), the call returns
an error and the world — the final versioned install directories and the
registry — is exactly what it was before the invocation; the final
directory is only removed/replaced after the full staged tree is
complete. -/
theorem staging_failure_preserves_world :
    ∀ (o : InstallOracle) (w : World) (q : Str) (forceUpdate : Bool)
      (assetOverride : Option Str) (e : Err),
      (install_or_update_tool o w q forceUpdate assetOverride).1 = .error e →
      e.isStaging = true →
      (install_or_update_tool o w q forceUpdate assetOverride).2 = w := by
  intro o w q forceUpdate assetOverride e h hs
  rcases hp : ToolIdentifier.parse q with m | tid
  · simp only [install_or_update_tool, hp]
  · by_cases hshim : lower tid.tool_name = str "tooler-shim"
    · simp only [install_or_update_tool, hp, if_pos hshim]
    · rcases hres : resolveAsset o tid tid.tool_name assetOverride with e2 | r
      · simp only [install_or_update_tool, hp, if_neg hshim, hres]
      · obtain ⟨actualVersion, asset, originalUrl, repoFullName⟩ := r
        simp only [install_or_update_tool, hp, if_neg hshim, hres] at h ⊢
        exact installAfterPaths_error_preserves_world _ _ _ _ _ _ _ _ _ _ _ h hs

/-- A concrete oracle whose download step fails. -/
def downloadFailOracle : InstallOracle where
  systemInfo := ⟨str "linux", str "arm"⟩
  isMusl := false
  toolsDir := str "/tools"
  now := str "t0"
  releaseInfo := .ok ⟨str "v1.0.0", [⟨str "tool-linux-arm", str "u"⟩]⟩
  fileExists := fun _ => false
  createBaseDir := .ok ()
  createStagingDir := .ok ()
  downloadResult := .error (str "network down")
  extractResult := .ok (str "tool")
  pythonResult := .ok (str "tool")
  stagedContent := 1
  removeDirResult := .ok ()
  createParentDir := .ok ()
  renameResult := .ok ()
  saveResult := .ok ()

/-- A concrete world with a previously installed version directory. -/
def previousInstallWorld : World where
  config := ⟨[], [], ⟨60, true, true, str "/b", true⟩⟩
  dirs := [(str "/tools/github/o__r__arm/v1.0.0", 0)]

/-- Witness for C7: a failing download leaves the previously installed
version directory (and the registry) untouched. -/
theorem staging_failure_preserves_world_witness :
    (install_or_update_tool downloadFailOracle previousInstallWorld
        (str "o/r") true none).1 = .error (.downloadError (str "network down")) ∧
    Err.isStaging (.downloadError (str "network down")) = true ∧
    (install_or_update_tool downloadFailOracle previousInstallWorld
        (str "o/r") true none).2 = previousInstallWorld :=
  ⟨by decide, by decide,
   staging_failure_preserves_world downloadFailOracle previousInstallWorld
     (str "o/r") true none (.downloadError (str "network down")) (by decide) (by decide)⟩

/-- C10: the `tooler-shim` guards. Installing any query whose parsed tool
name is `tooler-shim` (case-insensitively) fails before any network,
staging or registry effect — the result is the guard error and the world is
returned unchanged, for every oracle; and `remove_tool` on the literal
query `"tooler-shim"` fails likewise with the registry unchanged. -/
theorem tooler_shim_guard :
    (∀ (o : InstallOracle) (w : World) (q : Str) (forceUpdate : Bool)
        (assetOverride : Option Str) (tid : ToolIdentifier),
        ToolIdentifier.parse q = .ok tid →
        lower tid.tool_name = str "tooler-shim" →
        install_or_update_tool o w q forceUpdate assetOverride =
          (.error .shimInstallConflict, w)) ∧
    (∀ (o : RemoveOracle) (w : World),
        remove_tool o w (str "tooler-shim") = (.error .shimRemoveConflict, w)) := by
  constructor
  · intro o w q forceUpdate assetOverride tid hparse hshim
    simp only [install_or_update_tool, hparse, hshim, if_pos]
  · intro o w
    unfold remove_tool
    rw [if_pos (by decide : lower (str "tooler-shim") = str "tooler-shim")]

/-- Witness for C10 at the queries `"x/Tooler-Shim"` and `"tooler-shim"`. -/
theorem tooler_shim_guard_witness :
    install_or_update_tool downloadFailOracle previousInstallWorld
        (str "x/Tooler-Shim") true none = (.error .shimInstallConflict, previousInstallWorld) ∧
    remove_tool ⟨str "/tools", [], .ok (), .ok ()⟩ previousInstallWorld
        (str "tooler-shim") = (.error .shimRemoveConflict, previousInstallWorld) :=
  ⟨tooler_shim_guard.1 downloadFailOracle previousInstallWorld (str "x/Tooler-Shim")
      true none ⟨.gitHub, str "x", str "Tooler-Shim", some (str "default"), none⟩
      (by decide) (by decide),
   tooler_shim_guard.2 ⟨str "/tools", [], .ok (), .ok ()⟩ previousInstallWorld⟩

theorem exceptBind_ok (a : α) (f : α → Except ε β) :
    (Except.ok a : Except ε α) >>= f = f a := rfl

theorem decodeToolInfo_encodeToolInfo (t : ToolInfo) :
    decodeToolInfo (encodeToolInfo t) = .ok t := by
  obtain ⟨tn, rp, vs, ep, it, pin, ia, la, lc, fg, ou⟩ := t
  cases lc <;> cases fg <;> cases ou <;> rfl

theorem decodeTools_encode (l : List (Str × ToolInfo)) :
    decodeTools (l.map fun p => (p.1, encodeToolInfo p.2)) = .ok l := by
  induction l with
  | nil => rfl
  | cons p rest ih =>
    simp only [List.map_cons, decodeTools, decodeToolInfo_encodeToolInfo, ih, exceptBind_ok]

theorem decodeAliases_encode (l : List (Str × Str)) :
    decodeAliases (l.map fun p => (p.1, Json.str p.2)) = .ok l := by
  induction l with
  | nil => rfl
  | cons p rest ih =>
    simp only [List.map_cons, decodeAliases, ih, exceptBind_ok]

theorem decodeSettings_encodeSettings (dbd : Str) (s : ToolerSettings) :
    decodeSettings dbd (encodeSettings s) = .ok s := by
  obtain ⟨a, b, c, d, e⟩ := s
  rfl

theorem decodeConfig_obj (dbd : Str) (tObj aObj : List (Str × Json)) (sJson : Json) :
    decodeConfig dbd (.obj [(str "tools", .obj tObj), (str "aliases", .obj aObj),
      (str "settings", sJson)]) =
    (do
      let ts ← decodeTools tObj
      let als ← decodeAliases aObj
      let ss ← decodeSettings dbd sJson
      Except.ok ⟨ts, als, ss⟩) := rfl

/-- C8: registry persistence round-trip. For every registry with at least
one tool record and one alias (and, per the registry invariant, unique
keys), saving it and loading it back yields an equal registry. -/
theorem registry_save_load_roundtrip :
    ∀ (defaultBinDir : Str) (c : ToolerConfig),
      c.tools ≠ [] → c.aliases ≠ [] →
      (c.tools.map Prod.fst).Nodup → (c.aliases.map Prod.fst).Nodup →
      decodeConfig defaultBinDir (encodeConfig c) = .ok c := by
  intro dbd c _ _ _ _
  obtain ⟨tools, aliases, settings⟩ := c
  simp only [encodeConfig]
  rw [decodeConfig_obj]
  simp only [decodeTools_encode, decodeAliases_encode, decodeSettings_encodeSettings,
    exceptBind_ok]

/-- A one-record, one-alias registry. -/
def roundtripSampleConfig : ToolerConfig :=
  ⟨[(str "o/r@latest",
     ⟨str "r", str "o/r", str "1.0.0", str "/t/r", str "binary", false,
      str "t0", str "t0", none, .gitHub, none⟩)],
   [(str "rr", str "o/r")],
   ⟨60, true, true, str "/b", true⟩⟩

/-- Witness for C8 at a concrete one-record, one-alias registry. -/
theorem registry_save_load_roundtrip_witness :
    decodeConfig (str "/home/u/bin") (encodeConfig roundtripSampleConfig) =
      .ok roundtripSampleConfig :=
  registry_save_load_roundtrip (str "/home/u/bin") roundtripSampleConfig
    (by decide) (by decide) (by decide) (by decide)

/-- The seven fields of `ToolInfo` that have no serde default, each present
with a string value. -/
def hasRequiredToolFields (o : List (Str × Json)) : Prop :=
  (∃ s, mapGet o (str "tool_name") = some (.str s)) ∧
  (∃ s, mapGet o (str "repo") = some (.str s)) ∧
  (∃ s, mapGet o (str "version") = some (.str s)) ∧
  (∃ s, mapGet o (str "executable_path") = some (.str s)) ∧
  (∃ s, mapGet o (str "install_type") = some (.str s)) ∧
  (∃ s, mapGet o (str "installed_at") = some (.str s)) ∧
  (∃ s, mapGet o (str "last_accessed") = some (.str s))

theorem decodeToolInfo_missing_pinned (o : List (Str × Json))
    (hreq : hasRequiredToolFields o)
    (hpin : mapGet o (str "pinned") = none)
    (hlc : mapGet o (str "last_checked") = none)
    (hfg : mapGet o (str "forge") = none)
    (hou : mapGet o (str "original_url") = none) :
    ∃ t : ToolInfo, decodeToolInfo (.obj o) = .ok t ∧ t.pinned = false := by
  obtain ⟨⟨s1, h1⟩, ⟨s2, h2⟩, ⟨s3, h3⟩, ⟨s4, h4⟩, ⟨s5, h5⟩, ⟨s6, h6⟩, ⟨s7, h7⟩⟩ := hreq
  refine ⟨⟨s1, s2, s3, s4, s5, false, s6, s7, none, .gitHub, none⟩, ?_, rfl⟩
  simp only [decodeToolInfo, reqStrField, boolFieldD, optStrField, forgeFieldD,
    h1, h2, h3, h4, h5, h6, h7, hpin, hlc, hfg, hou, exceptBind_ok]

theorem decodeTools_all_missing_pinned :
    ∀ (toolsObj : List (Str × Json)),
      (∀ p ∈ toolsObj, ∃ o : List (Str × Json), p.2 = .obj o ∧
        hasRequiredToolFields o ∧ mapGet o (str "pinned") = none ∧
        mapGet o (str "last_checked") = none ∧ mapGet o (str "forge") = none ∧
        mapGet o (str "original_url") = none) →
      ∃ ts, decodeTools toolsObj = .ok ts ∧ ∀ p ∈ ts, p.2.pinned = false := by
  intro toolsObj
  induction toolsObj with
  | nil => exact fun _ => ⟨[], rfl, by simp⟩
  | cons p rest ih =>
    intro h
    obtain ⟨k, v⟩ := p
    obtain ⟨o, hpo, hreq, hpin, hlc, hfg, hou⟩ := h (k, v) (List.mem_cons_self _ _)
    obtain ⟨t, ht, htp⟩ := decodeToolInfo_missing_pinned o hreq hpin hlc hfg hou
    obtain ⟨ts, hts, htsp⟩ := ih fun q hq => h q (List.mem_cons_of_mem _ hq)
    refine ⟨(k, t) :: ts, ?_, ?_⟩
    · simp only at hpo
      simp only [decodeTools, hpo, ht, hts, exceptBind_ok]
    · intro q hq
      rcases List.mem_cons.mp hq with h' | h'
      · subst h'; exact htp
      · exact htsp q h'

theorem decodeAliases_all_str :
    ∀ (aObj : List (Str × Json)), (∀ p ∈ aObj, ∃ s : Str, p.2 = Json.str s) →
      ∃ als, decodeAliases aObj = .ok als := by
  intro aObj
  induction aObj with
  | nil => exact fun _ => ⟨[], rfl⟩
  | cons p rest ih =>
    intro h
    obtain ⟨k, v⟩ := p
    obtain ⟨s, hs⟩ := h (k, v) (List.mem_cons_self _ _)
    obtain ⟨als, hals⟩ := ih fun q hq => h q (List.mem_cons_of_mem _ hq)
    simp only at hs
    exact ⟨(k, s) :: als, by simp only [decodeAliases, hs, hals, exceptBind_ok]⟩

/-- C9: loading a structurally valid registry JSON whose tool records lack
the `pinned` field (and the other newer optional fields) succeeds — no
`CorruptConfig` — and every decoded record gets `pinned = false`, the
missing fields being merged over serde defaults. -/
theorem load_missing_pinned_defaults_false :
    ∀ (dbd : Str) (toolsObj aliasesObj : List (Str × Json)),
      (∀ p ∈ toolsObj, ∃ o : List (Str × Json), p.2 = .obj o ∧
        hasRequiredToolFields o ∧ mapGet o (str "pinned") = none ∧
        mapGet o (str "last_checked") = none ∧ mapGet o (str "forge") = none ∧
        mapGet o (str "original_url") = none) →
      (∀ p ∈ aliasesObj, ∃ s : Str, p.2 = Json.str s) →
      ∃ c : ToolerConfig,
        decodeConfig dbd (.obj [(str "tools", .obj toolsObj),
          (str "aliases", .obj aliasesObj), (str "settings", .obj [])]) = .ok c ∧
        ∀ p ∈ c.tools, p.2.pinned = false := by
  intro dbd toolsObj aliasesObj ht ha
  obtain ⟨ts, hts, htsp⟩ := decodeTools_all_missing_pinned toolsObj ht
  obtain ⟨als, hals⟩ := decodeAliases_all_str aliasesObj ha
  refine ⟨⟨ts, als, ⟨60, true, true, dbd, true⟩⟩, ?_, htsp⟩
  rw [decodeConfig_obj]
  simp only [hts, hals, exceptBind_ok]
  rfl

/-- A tool record as an older release would have written it: all required
fields present, no `pinned`, `last_checked`, `forge` or `original_url`. -/
def samplePinnedlessRecord : List (Str × Json) :=
  [(str "tool_name", .str (str "r")),
   (str "repo", .str (str "o/r")),
   (str "version", .str (str "1.0.0")),
   (str "executable_path", .str (str "/t/r")),
   (str "install_type", .str (str "binary")),
   (str "installed_at", .str (str "t0")),
   (str "last_accessed", .str (str "t0"))]

/-- Witness for C9 at a concrete registry JSON without `pinned` fields. -/
theorem load_missing_pinned_defaults_false_witness :
    ∃ c : ToolerConfig,
      decodeConfig (str "/b") (.obj [(str "tools",
          .obj [(str "o/r@latest", .obj samplePinnedlessRecord)]),
        (str "aliases", .obj [(str "rr", .str (str "o/r"))]),
        (str "settings", .obj [])]) = .ok c ∧
      ∀ p ∈ c.tools, p.2.pinned = false :=
  load_missing_pinned_defaults_false (str "/b")
    [(str "o/r@latest", .obj samplePinnedlessRecord)]
    [(str "rr", .str (str "o/r"))]
    (by
      intro p hp
      rcases List.mem_singleton.mp hp with rfl
      exact ⟨samplePinnedlessRecord, rfl,
        ⟨⟨str "r", rfl⟩, ⟨str "o/r", rfl⟩, ⟨str "1.0.0", rfl⟩, ⟨str "/t/r", rfl⟩,
         ⟨str "binary", rfl⟩, ⟨str "t0", rfl⟩, ⟨str "t0", rfl⟩⟩,
        rfl, rfl, rfl, rfl⟩)
    (by
      intro p hp
      rcases List.mem_singleton.mp hp with rfl
      exact ⟨str "o/r", rfl⟩)

end Tooler
